import Mathlib

/-!
# Verification of the settlement engines of `kotechi/my-token-project`

Shallow embedding of the two Soroban contracts of the repository:

* `src/contracts/crowdfunding/src/lib.rs` — the Campaign Engine
  (`CrowdfundingContract`);
* `src/snake-competition/src/lib.rs` — the Contest Engine
  (`SnakeGameCompetition`).

Modelling conventions:

* `Address` values are modelled as `Nat`; the contract's own address
  (`env.current_contract_address()`) is a distinguished `Party.contract`.
* `i128` amounts are modelled as `Int` (overflow of 128-bit arithmetic is out
  of scope for the claims checked here); `u64` timestamps and scores and `u32`
  counters are modelled as `Nat`.  Rust's `/` on `i128` truncates toward zero,
  which on `Int` is `Int.tdiv`.
* Soroban instance storage is a record with one `Option` field per storage
  key; `get(..).unwrap()` on an absent key traps, modelled as the
  `missingKey` error; `unwrap_or(d)` is `Option.getD d`.
* Soroban `Map` is modelled as an association list with update-in-place
  `setK` and lookup `lookupD` (the contracts never iterate over a map, so
  key order is irrelevant); `Vec` is `List`.
* Every entry point is a function from the pre-state (plus the ledger
  timestamp `now` and its arguments) to `Except err (state × outputs)`; a
  Rust `panic!` is an `Except.error`, and a failed call leaves the chain
  state unchanged (Soroban reverts the transaction on trap).  Calls of the
  token client's `transfer` are recorded in an output list of `Transfer`s.
* `require_auth()` is the host's concern (the model's caller *is* the
  authenticated address), matching the spec's scoping of authentication as
  an external collaborator.
-/

/-- A party of a token transfer: the contract's own custody account or an
external address. -/
inductive Party where
  | contract
  | user (a : Nat)
deriving DecidableEq, Repr

/-- One invocation of the external token-transfer collaborator
(`token_client.transfer(&src, &dst, &amount)`). -/
structure Transfer where
  src : Party
  dst : Party
  amount : Int
deriving DecidableEq, Repr

/-- Sum of the amounts moved by a list of transfers. -/
def sumAmounts (l : List Transfer) : Int :=
  (l.map (fun t => t.amount)).sum

/-- Lookup in an association list with a default
(Soroban `map.get(k).unwrap_or(d)`). -/
def lookupD {α : Type} (m : List (Nat × α)) (k : Nat) (d : α) : α :=
  match m with
  | [] => d
  | (k', v) :: rest => if k' = k then v else lookupD rest k d

/-- Update-or-insert in an association list (Soroban `map.set(k, v)`). -/
def setK {α : Type} (m : List (Nat × α)) (k : Nat) (v : α) : List (Nat × α) :=
  match m with
  | [] => [(k, v)]
  | (k', v') :: rest => if k' = k then (k, v) :: rest else (k', v') :: setK rest k v

/-- Sum of the values of an association list (`sum(donations.values())`). -/
def sumValues (m : List (Nat × Int)) : Int :=
  (m.map (fun p => p.2)).sum

/-! ## Campaign Engine (`CrowdfundingContract`) -/

/-- Instance storage of the crowdfunding contract: one `Option` field per
storage key (`owner`, `goal`, `deadline`, `raised`, `donations`, `xlm_addr`,
`is_init`); `none` means the key was never written. -/
structure CampaignState where
  owner : Option Nat
  goal : Option Int
  deadline : Option Nat
  totalRaised : Option Int
  donations : Option (List (Nat × Int))
  xlmToken : Option Nat
  isInit : Option Bool
deriving DecidableEq, Repr

/-- Storage of a freshly deployed crowdfunding contract: every key absent. -/
def emptyCampaign : CampaignState :=
  { owner := none, goal := none, deadline := none, totalRaised := none,
    donations := none, xlmToken := none, isInit := none }

/-- Abort causes of the crowdfunding contract: one constructor per `panic!`
message, plus `missingKey` for an `unwrap()` of an absent storage key. -/
inductive CfErr where
  | campaignEnded        -- "Campaign has ended"
  | invalidAmount        -- "Donation amount must be positive"
  | campaignNotEnded     -- "Campaign belum berakhir"
  | goalReached          -- "Goal sudah tercapai, tidak bisa refund"
  | noDonationFound      -- "No donations found for this address"
  | missingKey           -- trap: unwrap() of an absent storage key
deriving DecidableEq, Repr

/-- `CrowdfundingContract::initialize` (src/contracts/crowdfunding/src/lib.rs,
lines 28–52).  The source performs no already-initialized check: it
unconditionally overwrites every storage key, resets `raised` to `0`, sets
`is_init` to `true` and replaces `donations` with an empty map. -/
def initCampaign (_s : CampaignState) (owner : Nat) (goal : Int)
    (deadline : Nat) (xlm_token : Nat) : Except CfErr CampaignState :=
  .ok { owner := some owner, goal := some goal, deadline := some deadline,
        totalRaised := some 0, xlmToken := some xlm_token, isInit := some true,
        donations := some [] }

/-- `CrowdfundingContract::donate` (lines 56–89). -/
def donate (s : CampaignState) (now : Nat) (donor : Nat) (amount : Int) :
    Except CfErr (CampaignState × List Transfer) :=
  match s.deadline with
  | none => .error .missingKey
  | some dl =>
    if dl < now then .error .campaignEnded
    else if amount ≤ 0 then .error .invalidAmount
    else match s.xlmToken with
      | none => .error .missingKey
      | some _tk =>
        match s.totalRaised with
        | none => .error .missingKey
        | some total =>
          match s.donations with
          | none => .error .missingKey
          | some ds =>
            .ok ({ s with
                     totalRaised := some (total + amount)
                     donations := some (setK ds donor (lookupD ds donor 0 + amount)) },
                 [⟨Party.user donor, Party.contract, amount⟩])

/-- `CrowdfundingContract::get_total_raised` (lines 93–95):
`unwrap_or(0)`, hence total (never traps). -/
def get_total_raised (s : CampaignState) : Int :=
  s.totalRaised.getD 0

/-- `CrowdfundingContract::get_donation` (lines 98–101): the donations map is
read with a bare `unwrap()`, so the call traps when the key is absent. -/
def get_donation (s : CampaignState) (donor : Nat) : Except CfErr Int :=
  match s.donations with
  | none => .error .missingKey
  | some ds => .ok (lookupD ds donor 0)

/-- `CrowdfundingContract::get_is_already_init` (lines 104–106):
`unwrap_or(false)`, hence total. -/
def get_is_already_init (s : CampaignState) : Bool :=
  s.isInit.getD false

/-- `CrowdfundingContract::get_goal` (lines 108–110): bare `unwrap()`. -/
def get_goal (s : CampaignState) : Except CfErr Int :=
  match s.goal with
  | none => .error .missingKey
  | some g => .ok g

/-- `CrowdfundingContract::get_deadline` (lines 112–114): bare `unwrap()`. -/
def get_deadline (s : CampaignState) : Except CfErr Nat :=
  match s.deadline with
  | none => .error .missingKey
  | some dl => .ok dl

/-- `CrowdfundingContract::is_goal_reached` (lines 115–119): `raised` is read
with `unwrap_or(0)` but `goal` with a bare `unwrap()`. -/
def is_goal_reached (s : CampaignState) : Except CfErr Bool :=
  match s.goal with
  | none => .error .missingKey
  | some g => .ok (decide (g ≤ s.totalRaised.getD 0))

/-- `CrowdfundingContract::is_ended` (lines 121–124): bare `unwrap()` of the
deadline, then the strict comparison `timestamp() > deadline`. -/
def is_ended (s : CampaignState) (now : Nat) : Except CfErr Bool :=
  match s.deadline with
  | none => .error .missingKey
  | some dl => .ok (decide (dl < now))

/-- Modelled from the spec: `get_progress_percentage` is missing from the
compiled source — in `src/contracts/crowdfunding/src/lib.rs` (lines 125–132)
it exists only as commented-out code, although `src/contracts/crowdfunding/src/test.rs`
(test 13) still calls it.  The body below follows the spec's formula
`(totalRaised * 100) / goal` with `0` when `goal == 0`, which coincides with
the commented-out block (`raised` read with `unwrap_or(0)`, `goal` with
`unwrap()`, truncating division). -/
def get_progress_percentage (s : CampaignState) : Except CfErr Int :=
  match s.goal with
  | none => .error .missingKey
  | some g =>
    if g = 0 then .ok 0
    else .ok ((s.totalRaised.getD 0 * 100).tdiv g)

/-- `CrowdfundingContract::refund` (lines 133–169).  Returns the refunded
amount together with the post-state and the transfer performed. -/
def refund (s : CampaignState) (now : Nat) (donor : Nat) :
    Except CfErr (CampaignState × Int × List Transfer) :=
  match s.deadline with
  | none => .error .missingKey
  | some dl =>
    match s.goal with
    | none => .error .missingKey
    | some g =>
      -- total_raised is first read with `unwrap_or(0)` for the goal check
      if now ≤ dl then .error .campaignNotEnded
      else if g ≤ s.totalRaised.getD 0 then .error .goalReached
      else match s.donations with
        | none => .error .missingKey
        | some ds =>
          let donated := lookupD ds donor 0
          if donated ≤ 0 then .error .noDonationFound
          else match s.xlmToken with
            | none => .error .missingKey
            | some _tk =>
              -- after the transfer, total_raised is re-read with a bare unwrap()
              match s.totalRaised with
              | none => .error .missingKey
              | some total =>
                .ok ({ s with
                         totalRaised := some (total - donated)
                         donations := some (setK ds donor 0) },
                     donated,
                     [⟨Party.contract, Party.user donor, donated⟩])

/-! ## Contest Engine (`SnakeGameCompetition`) -/

/-- Competition status constant `STATUS_ACTIVE` (src/snake-competition/src/lib.rs, line 12). -/
def STATUS_ACTIVE : Nat := 1

/-- Competition status constant `STATUS_CLAIMED` (line 14). -/
def STATUS_CLAIMED : Nat := 3

/-- `Competition` record (lines 19–26). -/
structure Competition where
  entry_fee : Int
  session_id : Nat
  deadline : Nat
  status : Nat
  prize_pool : Int
  total_players : Nat
deriving DecidableEq, Repr

/-- `PlayerScore` record (lines 30–35). -/
structure PlayerScore where
  player : Nat
  total_games : Nat
  total_score : Nat
  rank : Nat
deriving DecidableEq, Repr

/-- Instance storage of the snake-competition contract: one `Option` field per
storage key (`admin`, `token`, `comp`, `leader`, `paid`). -/
structure SnakeState where
  admin : Option Nat
  token : Option Nat
  competition : Option Competition
  leaderboard : Option (List PlayerScore)
  paidPlayers : Option (List (Nat × Bool))
deriving DecidableEq, Repr

/-- Storage of a freshly deployed snake-competition contract. -/
def emptySnake : SnakeState :=
  { admin := none, token := none, competition := none,
    leaderboard := none, paidPlayers := none }

/-- Abort causes of the snake-competition contract. -/
inductive SnErr where
  | alreadyInit          -- "Already initialized"
  | onlyAdminCreate      -- "Only admin can create competition"
  | alreadyActive        -- "Competition already active"
  | invalidDeadline      -- "Deadline must be in the future"
  | invalidFee           -- "Entry fee must be positive"
  | noCompetition        -- expect("No active competition")
  | competitionNotActive -- "Competition not active"
  | competitionEnded     -- "Competition has ended"
  | alreadyPaid          -- "Player has already paid for a game; submit score first"
  | paymentRequired      -- "Player must pay entry fee before submitting score"
  | onlyAdminEnd         -- "Only admin can end competition"
  | missingKey           -- trap: unwrap() of an absent storage key
deriving DecidableEq, Repr

/-- `SnakeGameCompetition::initialize` (lines 44–53): unlike the campaign
engine, this contract does guard re-initialization via `has(&ADMIN)`. -/
def initContract (s : SnakeState) (admin : Nat) (token_address : Nat) :
    Except SnErr SnakeState :=
  if s.admin.isSome then .error .alreadyInit
  else .ok { s with admin := some admin, token := some token_address }

/-- `SnakeGameCompetition::create_competition` (lines 56–91). -/
def create_competition (s : SnakeState) (now : Nat) (admin : Nat)
    (session_id : Nat) (deadline : Nat) (entry_fee : Int) :
    Except SnErr SnakeState :=
  match s.admin with
  | none => .error .missingKey
  | some stored =>
    if admin ≠ stored then .error .onlyAdminCreate
    else if (match s.competition with
             | some c => c.status == STATUS_ACTIVE
             | none => false) then .error .alreadyActive
    else if deadline ≤ now then .error .invalidDeadline
    else if entry_fee ≤ 0 then .error .invalidFee
    else .ok { s with
                 competition := some ⟨entry_fee, session_id, deadline, STATUS_ACTIVE, 0, 0⟩
                 leaderboard := some []
                 paidPlayers := some [] }

/-- `SnakeGameCompetition::pay_entry_fee` (lines 94–130).  Note the deadline
gate `now >= comp.deadline → panic("Competition has ended")`: the entry
window is open only while `now < deadline`. -/
def pay_entry_fee (s : SnakeState) (now : Nat) (player : Nat) :
    Except SnErr (SnakeState × List Transfer) :=
  match s.competition with
  | none => .error .noCompetition
  | some comp =>
    if comp.status ≠ STATUS_ACTIVE then .error .competitionNotActive
    else if comp.deadline ≤ now then .error .competitionEnded
    else
      let paid := s.paidPlayers.getD []
      if lookupD paid player false = true then .error .alreadyPaid
      else match s.token with
        | none => .error .missingKey
        | some _tk =>
          .ok ({ s with
                   competition := some { comp with
                                           prize_pool := comp.prize_pool + comp.entry_fee }
                   paidPlayers := some (setK paid player true) },
               [⟨Party.user player, Party.contract, comp.entry_fee⟩])

/-- One compare-exchange pass of the bubble sort of `submit_score`
(lines 188–197): the inner loop with bound `stop` visits `j = 0, …, stop-1`,
compares positions `j`, `j+1` of the current vector and swaps them when the
earlier score is strictly smaller.  After iteration `j` the first `j+1`
positions are final for the pass, so the loop is exactly this structural
recursion (one comparison consumed per step). -/
def bubblePass : Nat → List PlayerScore → List PlayerScore
  | 0, l => l
  | _ + 1, [] => []
  | _ + 1, [a] => [a]
  | n + 1, a :: b :: t =>
    if a.total_score < b.total_score
    then b :: bubblePass n (a :: t)
    else a :: bubblePass n (b :: t)

/-- The outer loop of the bubble sort (lines 188–197): iteration
`i = 0, …, len-1` runs the inner pass with bound `len - i - 1`.  Counting the
remaining iterations `k` downwards, the pass bounds are `k-1, k-2, …, 0`. -/
def bubbleOuter : Nat → List PlayerScore → List PlayerScore
  | 0, l => l
  | k + 1, l => bubbleOuter k (bubblePass k l)

/-- The full leaderboard re-sort of `submit_score`: descending bubble sort. -/
def sortLeaderboard (l : List PlayerScore) : List PlayerScore :=
  bubbleOuter l.length l

/-- Rank assignment of `submit_score` (lines 200–205): entry at sorted index
`i` receives `rank = i + 1`; `i0` is the index of the head. -/
def assignRanks (i0 : Nat) : List PlayerScore → List PlayerScore
  | [] => []
  | p :: t => { p with rank := i0 + 1 } :: assignRanks (i0 + 1) t

/-- `SnakeGameCompetition::submit_score` (lines 133–209). -/
def submit_score (s : SnakeState) (now : Nat) (player : Nat) (score : Nat) :
    Except SnErr (SnakeState × List Transfer) :=
  match s.competition with
  | none => .error .noCompetition
  | some comp =>
    if comp.status ≠ STATUS_ACTIVE then .error .competitionNotActive
    else if comp.deadline ≤ now then .error .competitionEnded
    else
      let paid := s.paidPlayers.getD []
      if lookupD paid player false = false then .error .paymentRequired
      else
        let paid2 := setK paid player false
        let lb := s.leaderboard.getD []
        -- the update loop bumps every row whose player matches and records
        -- whether a match was found
        let found := lb.any (fun p => p.player = player)
        let updated := lb.map (fun p =>
          if p.player = player
          then { p with
                   total_games := p.total_games + 1
                   total_score := p.total_score + score }
          else p)
        let upd2 := if found then updated
                    else updated ++ [⟨player, 1, score, 0⟩]
        let comp2 := if found then comp
                     else { comp with total_players := comp.total_players + 1 }
        let final := assignRanks 0 (sortLeaderboard upd2)
        .ok ({ s with
                 leaderboard := some final
                 paidPlayers := some paid2
                 competition := some comp2 }, [])

/-- Payout of one ranked slot in `end_competition` (lines 246–264): the code
guards each transfer by `lb.len() >= i + 1` and then reads `lb.get(i).unwrap()`,
which is exactly "transfer iff position `i` exists". -/
def payToRank (remaining_pool : Int) (pct : Int) (slot : Option PlayerScore) :
    List Transfer :=
  match slot with
  | some p => [⟨Party.contract, Party.user p.player, (remaining_pool * pct).tdiv 100⟩]
  | none => []

/-- `SnakeGameCompetition::end_competition` (lines 212–269).  The deadline
check is commented out in the source (lines 224–227), so the ledger timestamp
is never consulted (`_now`). -/
def end_competition (s : SnakeState) (_now : Nat) (admin : Nat) :
    Except SnErr (SnakeState × List Transfer) :=
  match s.admin with
  | none => .error .missingKey
  | some stored =>
    if admin ≠ stored then .error .onlyAdminEnd
    else match s.competition with
      | none => .error .missingKey
      | some comp =>
        if comp.status ≠ STATUS_ACTIVE then .error .competitionNotActive
        else
          let lb := s.leaderboard.getD []
          let prize_pool := comp.prize_pool
          if 0 < prize_pool ∧ 0 < lb.length then
            match s.token with
            | none => .error .missingKey
            | some _tk =>
              let admin_fee := (prize_pool * 10).tdiv 100
              let remaining_pool := prize_pool - admin_fee
              .ok ({ s with competition := some { comp with status := STATUS_CLAIMED } },
                   ⟨Party.contract, Party.user stored, admin_fee⟩ ::
                     (payToRank remaining_pool 50 lb[0]? ++
                      payToRank remaining_pool 30 lb[1]? ++
                      payToRank remaining_pool 20 lb[2]?))
          else
            .ok ({ s with competition := some { comp with status := STATUS_CLAIMED } }, [])

/-- `SnakeGameCompetition::get_competition` (lines 272–274). -/
def get_competition (s : SnakeState) : Option Competition :=
  s.competition

/-- `SnakeGameCompetition::get_leaderboard` (lines 276–278): `unwrap_or` empty. -/
def get_leaderboard (s : SnakeState) : List PlayerScore :=
  s.leaderboard.getD []

/-- `SnakeGameCompetition::get_player_stats` (lines 280–289): first matching
row of the leaderboard, `None` otherwise. -/
def get_player_stats (s : SnakeState) (player : Nat) : Option PlayerScore :=
  (s.leaderboard.getD []).find? (fun p => p.player == player)

/-- `SnakeGameCompetition::get_entry_fee` (lines 291–297): `0` when no
competition was ever created. -/
def get_entry_fee (s : SnakeState) : Int :=
  match s.competition with
  | some comp => comp.entry_fee
  | none => 0

/-- `SnakeGameCompetition::get_admin` (lines 299–301): bare `unwrap()`, traps
before the contract is initialized. -/
def get_admin (s : SnakeState) : Except SnErr Nat :=
  match s.admin with
  | none => .error .missingKey
  | some a => .ok a

/-- `SnakeGameCompetition::has_paid` (lines 303–306): default `false`. -/
def has_paid (s : SnakeState) (player : Nat) : Bool :=
  lookupD (s.paidPlayers.getD []) player false

/-! ## Properties of the leaderboard sort -/

/-- Weakly descending order by `total_score`. -/
def sortedDesc (l : List PlayerScore) : Prop :=
  l.Pairwise (fun x y => y.total_score ≤ x.total_score)

/-! ## Call traces of the Campaign Engine -/

/-- One external call to the Campaign Engine, with its arguments and the
ledger timestamp at which it arrives. -/
inductive CfOp where
  | opInit (owner : Nat) (goal : Int) (deadline : Nat) (xlm_token : Nat)
  | opDonate (now : Nat) (donor : Nat) (amount : Int)
  | opRefund (now : Nat) (donor : Nat)
deriving DecidableEq, Repr

/-- Execute one call against the stored state.  A call that aborts leaves the
state unchanged (Soroban reverts a trapped invocation). -/
def execCfOp (s : CampaignState) : CfOp → CampaignState
  | .opInit o g dl tk =>
    match initCampaign s o g dl tk with
    | .ok s2 => s2
    | .error _ => s
  | .opDonate now d a =>
    match donate s now d a with
    | .ok (s2, _) => s2
    | .error _ => s
  | .opRefund now d =>
    match refund s now d with
    | .ok (s2, _, _) => s2
    | .error _ => s

/-- The ledger/aggregate consistency invariant: the stored running total
equals the sum of the stored per-donor ledger. -/
def cfConsistent (s : CampaignState) : Prop :=
  get_total_raised s = sumValues (s.donations.getD [])


/-! ## Concrete sample states used by witnesses and counterexamples -/

/-- The campaign storage produced by a first `initialize(owner=1, goal=100,
deadline=10, xlm_token=2)`. -/
def campA : CampaignState :=
  { owner := some 1, goal := some 100, deadline := some 10, totalRaised := some 0,
    donations := some [], xlmToken := some 2, isInit := some true }

/-- The campaign storage produced by a second `initialize(owner=3, goal=200,
deadline=20, xlm_token=4)` on top of `campA`. -/
def campB : CampaignState :=
  { owner := some 3, goal := some 200, deadline := some 20, totalRaised := some 0,
    donations := some [], xlmToken := some 4, isInit := some true }

/-- An initialized campaign (§8 example): goal 100,000,000, deadline 100,
donor 7 has deposited 30,000,000. -/
def campRefundSample : CampaignState :=
  { owner := some 1, goal := some 100000000, deadline := some 100,
    totalRaised := some 30000000, donations := some [(7, 30000000)],
    xlmToken := some 2, isInit := some true }

/-- An initialized campaign with goal 100,000,000 and a parametric running
total (used to evaluate the progress-percentage formula). -/
def campProgress (t : Int) : CampaignState :=
  { owner := some 1, goal := some 100000000, deadline := some 100,
    totalRaised := some t, donations := some [], xlmToken := some 2,
    isInit := some true }

/-- An initialized campaign whose goal is `0` (divide-by-zero guard case). -/
def campGoal0 : CampaignState :=
  { owner := some 1, goal := some 0, deadline := some 100, totalRaised := some 0,
    donations := some [], xlmToken := some 2, isInit := some true }

/-- An `Active` competition: entry fee 10, deadline 100, prize pool 100,
2 players. -/
def compSample : Competition :=
  { entry_fee := 10, session_id := 1, deadline := 100, status := STATUS_ACTIVE,
    prize_pool := 100, total_players := 2 }

/-- Contest storage holding `compSample` with a two-entry leaderboard. -/
def snEndSample : SnakeState :=
  { admin := some 1, token := some 2, competition := some compSample,
    leaderboard := some [⟨3, 1, 30, 1⟩, ⟨4, 1, 20, 2⟩], paidPlayers := some [] }

/-- An `Active` competition with an empty prize pool and one known player. -/
def compTie : Competition :=
  { entry_fee := 10, session_id := 1, deadline := 100, status := STATUS_ACTIVE,
    prize_pool := 0, total_players := 1 }

/-- Contest storage where player 1 already has score 10 on the leaderboard and
player 2 has paid but not submitted. -/
def snTieSample : SnakeState :=
  { admin := some 9, token := some 8, competition := some compTie,
    leaderboard := some [⟨1, 1, 10, 1⟩], paidPlayers := some [(2, true)] }

/-- The storage produced by `submit_score(player=2, score=10)` on
`snTieSample`: both players now carry score 10 and ranks follow list order. -/
def snTieResult : SnakeState :=
  { admin := some 9, token := some 8,
    competition := some { compTie with total_players := 2 },
    leaderboard := some [⟨1, 1, 10, 1⟩, ⟨2, 1, 10, 2⟩],
    paidPlayers := some [(2, false)] }


/-! ## Helper lemmas -/

theorem lookupD_setK_self {α : Type} (m : List (Nat × α)) (k : Nat) (v d : α) :
    lookupD (setK m k v) k d = v := by
  induction m with
  | nil => simp [setK, lookupD]
  | cons hd tl ih =>
    obtain ⟨k', v'⟩ := hd
    by_cases h : k' = k <;> simp [setK, lookupD, h, ih]

theorem sumValues_setK (m : List (Nat × Int)) (k : Nat) (v : Int) :
    sumValues (setK m k v) = sumValues m + v - lookupD m k 0 := by
  induction m with
  | nil => simp [setK, sumValues, lookupD]
  | cons hd tl ih =>
    obtain ⟨k', v'⟩ := hd
    by_cases h : k' = k
    · simp [setK, sumValues, lookupD, h]
      ring
    · simp [setK, sumValues, lookupD, h] at ih ⊢
      omega

theorem bubblePass_length (cnt : Nat) (l : List PlayerScore) :
    (bubblePass cnt l).length = l.length := by
  induction cnt generalizing l with
  | zero => rfl
  | succ n ih =>
    cases l with
    | nil => rfl
    | cons a t =>
      cases t with
      | nil => rfl
      | cons b t' =>
        simp only [bubblePass]
        split
        · simpa using ih (a :: t')
        · simpa using ih (b :: t')

theorem bubblePass_perm (cnt : Nat) (l : List PlayerScore) :
    (bubblePass cnt l).Perm l := by
  induction cnt generalizing l with
  | zero => exact List.Perm.refl l
  | succ n ih =>
    cases l with
    | nil => exact List.Perm.refl _
    | cons a t =>
      cases t with
      | nil => exact List.Perm.refl _
      | cons b t' =>
        simp only [bubblePass]
        split
        · exact ((ih (a :: t')).cons b).trans (List.Perm.swap a b t')
        · exact (ih (b :: t')).cons a

theorem bubblePass_split (cnt : Nat) (l : List PlayerScore) :
    bubblePass cnt l = bubblePass cnt (l.take (cnt + 1)) ++ l.drop (cnt + 1) := by
  induction cnt generalizing l with
  | zero => cases l <;> simp [bubblePass]
  | succ n ih =>
    cases l with
    | nil => simp [bubblePass]
    | cons a t =>
      cases t with
      | nil => simp [bubblePass]
      | cons b t' =>
        simp only [List.take_succ_cons, List.drop_succ_cons, bubblePass]
        split
        · rw [ih (a :: t')]
          simp [List.take_succ_cons, List.drop_succ_cons]
        · rw [ih (b :: t')]
          simp [List.take_succ_cons, List.drop_succ_cons]

/-- A full pass over a list of length `cnt + 1` sinks an element of minimal
`total_score` to the last position. -/
theorem bubblePass_sink (cnt : Nat) :
    ∀ l : List PlayerScore, l.length = cnt + 1 →
    ∃ l' m, bubblePass cnt l = l' ++ [m] ∧ (l' ++ [m]).Perm l ∧
      ∀ x ∈ l', m.total_score ≤ x.total_score := by
  induction cnt with
  | zero =>
    intro l hl
    cases l with
    | nil => simp at hl
    | cons a t =>
      cases t with
      | nil => exact ⟨[], a, rfl, List.Perm.refl _, by simp⟩
      | cons b t' => simp at hl
  | succ n ih =>
    intro l hl
    cases l with
    | nil => simp at hl
    | cons a t =>
      cases t with
      | nil => simp at hl
      | cons b t' =>
        have ht' : (a :: t').length = n + 1 := by simp at hl ⊢; omega
        have ht'' : (b :: t').length = n + 1 := by simp at hl ⊢; omega
        simp only [bubblePass]
        split
        next h =>
          obtain ⟨l', m, he, hperm, hmin⟩ := ih (a :: t') ht'
          refine ⟨b :: l', m, by simp [he], ?_, ?_⟩
          · exact (hperm.cons b).trans (List.Perm.swap a b t')
          · intro x hx
            rcases List.mem_cons.mp hx with rfl | hx'
            · have ha : a ∈ l' ++ [m] := hperm.mem_iff.mpr (by simp)
              rcases List.mem_append.mp ha with ha' | ha'
              · exact le_trans (hmin a ha') (le_of_lt h)
              · have : a = m := by simpa using ha'
                subst this
                exact le_of_lt h
            · exact hmin x hx'
        next h =>
          obtain ⟨l', m, he, hperm, hmin⟩ := ih (b :: t') ht''
          refine ⟨a :: l', m, by simp [he], ?_, ?_⟩
          · exact hperm.cons a
          · intro x hx
            rcases List.mem_cons.mp hx with hxa | hx'
            · have hb : b ∈ l' ++ [m] := hperm.mem_iff.mpr (by simp)
              have hba : b.total_score ≤ a.total_score := Nat.not_lt.mp h
              have hmb : m.total_score ≤ b.total_score := by
                rcases List.mem_append.mp hb with hb' | hb'
                · exact hmin b hb'
                · have hbm : b = m := by simpa using hb'
                  rw [hbm]
              rw [hxa]
              exact le_trans hmb hba
            · exact hmin x hx'

/-- Invariant of the outer loop: with `k` iterations left, the suffix beyond
position `k` is already sorted and dominated by the first `k` positions; the
remaining passes (bounds `k-1, …, 0`) then sort the whole list. -/
theorem bubbleOuter_invariant :
    ∀ (k : Nat) (l : List PlayerScore), k ≤ l.length →
      sortedDesc (l.drop k) →
      (∀ x ∈ l.take k, ∀ y ∈ l.drop k, y.total_score ≤ x.total_score) →
      (bubbleOuter k l).Perm l ∧ sortedDesc (bubbleOuter k l) := by
  intro k
  induction k with
  | zero =>
    intro l _ hs _
    exact ⟨List.Perm.refl l, by simpa using hs⟩
  | succ n ih =>
    intro l hk hs hdom
    have hpre : (l.take (n + 1)).length = n + 1 := by
      simp [List.length_take]
      omega
    obtain ⟨l', m, he, hperm, hmin⟩ := bubblePass_sink n (l.take (n + 1)) hpre
    have hl' : l'.length = n := by
      have := hperm.length_eq
      simp [hpre] at this
      omega
    have hsplit : bubblePass n l = (l' ++ [m]) ++ l.drop (n + 1) := by
      rw [bubblePass_split n l, he]
    have hmem_pre : ∀ x ∈ l' ++ [m], x ∈ l.take (n + 1) :=
      fun x hx => hperm.mem_iff.mp hx
    have htake : (bubblePass n l).take n = l' := by
      rw [hsplit, List.append_assoc, ← hl', List.take_left]
    have hdrop : (bubblePass n l).drop n = m :: l.drop (n + 1) := by
      rw [hsplit, List.append_assoc, ← hl', List.drop_left]
      rfl
    have hlen2 : (bubblePass n l).length = l.length := bubblePass_length n l
    have harg2 : sortedDesc ((bubblePass n l).drop n) := by
      rw [hdrop, sortedDesc, List.pairwise_cons]
      constructor
      · intro y hy
        exact hdom m (hmem_pre m (by simp)) y hy
      · exact hs
    have harg3 : ∀ x ∈ (bubblePass n l).take n,
        ∀ y ∈ (bubblePass n l).drop n, y.total_score ≤ x.total_score := by
      rw [htake, hdrop]
      intro x hx y hy
      rcases List.mem_cons.mp hy with hym | hy'
      · rw [hym]
        exact hmin x hx
      · exact hdom x (hmem_pre x (by simp [hx])) y hy'
    have := ih (bubblePass n l) (by omega) harg2 harg3
    exact ⟨this.1.trans (bubblePass_perm n l), this.2⟩

/-- The full bubble sort of `submit_score` permutes the leaderboard. -/
theorem sortLeaderboard_perm (l : List PlayerScore) : (sortLeaderboard l).Perm l := by
  refine (bubbleOuter_invariant l.length l (le_refl _) ?_ ?_).1
  · simp [sortedDesc]
  · simp

/-- The full bubble sort of `submit_score` sorts weakly descending by
`total_score`. -/
theorem sortLeaderboard_sorted (l : List PlayerScore) : sortedDesc (sortLeaderboard l) := by
  refine (bubbleOuter_invariant l.length l (le_refl _) ?_ ?_).2
  · simp [sortedDesc]
  · simp

/-- Stability of one pass: entries are exchanged only when the earlier
`total_score` is strictly smaller, so the sublist of entries with any fixed
`total_score` is untouched. -/
theorem bubblePass_filter (s : Nat) (cnt : Nat) :
    ∀ l : List PlayerScore,
      (bubblePass cnt l).filter (fun e => e.total_score == s)
        = l.filter (fun e => e.total_score == s) := by
  induction cnt with
  | zero => intro l; rfl
  | succ n ih =>
    intro l
    cases l with
    | nil => rfl
    | cons a t =>
      cases t with
      | nil => rfl
      | cons b t' =>
        simp only [bubblePass]
        split
        next h =>
          by_cases ha : a.total_score = s <;> by_cases hb : b.total_score = s
          · omega
          · simp [List.filter_cons, ih (a :: t'), ha, hb]
          · simp [List.filter_cons, ih (a :: t'), ha, hb]
          · simp [List.filter_cons, ih (a :: t'), ha, hb]
        next h =>
          by_cases ha : a.total_score = s <;>
            simp [List.filter_cons, ih (b :: t'), ha]

/-- Stability of the whole sort: for every score value the sublist of entries
carrying that score is preserved in order. -/
theorem sortLeaderboard_filter (s : Nat) (l : List PlayerScore) :
    (sortLeaderboard l).filter (fun e => e.total_score == s)
      = l.filter (fun e => e.total_score == s) := by
  show (bubbleOuter l.length l).filter _ = _
  generalize l.length = k
  induction k generalizing l with
  | zero => rfl
  | succ n ih =>
    show (bubbleOuter n (bubblePass n l)).filter _ = _
    rw [ih (bubblePass n l), bubblePass_filter]

theorem assignRanks_length (i0 : Nat) (l : List PlayerScore) :
    (assignRanks i0 l).length = l.length := by
  induction l generalizing i0 with
  | nil => rfl
  | cons p t ih => simp [assignRanks, ih]

/-- The rank written at sorted index `i` (head index `i0`) is `i0 + i + 1`. -/
theorem assignRanks_get (l : List PlayerScore) :
    ∀ (i0 i : Nat) (h : i < (assignRanks i0 l).length),
      ((assignRanks i0 l).get ⟨i, h⟩).rank = i0 + i + 1 := by
  induction l with
  | nil => intro i0 i h; simp [assignRanks] at h
  | cons p t ih =>
    intro i0 i h
    cases i with
    | zero => simp [assignRanks]
    | succ j =>
      have hj : j < (assignRanks (i0 + 1) t).length := by
        simpa [assignRanks] using h
      have := ih (i0 + 1) j hj
      simp only [assignRanks, List.get_cons_succ]
      rw [this]
      omega

theorem assignRanks_mem (l : List PlayerScore) :
    ∀ (i0 : Nat) (y : PlayerScore), y ∈ assignRanks i0 l →
      ∃ z ∈ l, y.total_score = z.total_score ∧ y.player = z.player := by
  induction l with
  | nil => intro i0 y hy; simp [assignRanks] at hy
  | cons p t ih =>
    intro i0 y hy
    rcases List.mem_cons.mp (by simpa [assignRanks] using hy) with hy0 | hy'
    · exact ⟨p, by simp, by simp [hy0]⟩
    · obtain ⟨z, hz, hsc, hpl⟩ := ih (i0 + 1) y hy'
      exact ⟨z, by simp [hz], hsc, hpl⟩

/-- Rank assignment does not disturb the sort order (it changes only `rank`). -/
theorem assignRanks_sorted (l : List PlayerScore) :
    ∀ i0 : Nat, sortedDesc l → sortedDesc (assignRanks i0 l) := by
  induction l with
  | nil => intro i0 _; simp [assignRanks, sortedDesc]
  | cons p t ih =>
    intro i0 hp
    rw [sortedDesc, List.pairwise_cons] at hp
    rw [assignRanks, sortedDesc, List.pairwise_cons]
    constructor
    · intro y hy
      obtain ⟨z, hz, hsc, _⟩ := assignRanks_mem t (i0 + 1) y hy
      simpa [hsc] using hp.1 z hz
    · exact ih (i0 + 1) hp.2

/-- Rank assignment preserves, for every score value, the ordered list of
players carrying that score. -/
theorem assignRanks_filter_players (s : Nat) (l : List PlayerScore) :
    ∀ i0 : Nat,
      ((assignRanks i0 l).filter (fun e => e.total_score == s)).map (fun e => e.player)
        = (l.filter (fun e => e.total_score == s)).map (fun e => e.player) := by
  induction l with
  | nil => intro i0; rfl
  | cons p t ih =>
    intro i0
    by_cases hp : p.total_score = s <;>
      simp [assignRanks, List.filter_cons, hp, ih (i0 + 1)]

/-! ## Arithmetic bound of the payout splitter -/

/-- For a positive pool `p`, the admin fee and the three percentage shares of
the remainder are all non-negative, and together they never exceed `p`
(truncating division only loses value). -/
theorem payout_bound_int (p : Int) (hp : 0 < p) :
    0 ≤ (p * 10).tdiv 100 ∧
    0 ≤ ((p - (p * 10).tdiv 100) * 50).tdiv 100 ∧
    0 ≤ ((p - (p * 10).tdiv 100) * 30).tdiv 100 ∧
    0 ≤ ((p - (p * 10).tdiv 100) * 20).tdiv 100 ∧
    (p * 10).tdiv 100 + ((p - (p * 10).tdiv 100) * 50).tdiv 100
      + ((p - (p * 10).tdiv 100) * 30).tdiv 100
      + ((p - (p * 10).tdiv 100) * 20).tdiv 100 ≤ p := by
  have hp' : (0 : Int) ≤ p := hp.le
  have h100 : (0 : Int) < 100 := by norm_num
  have hp10 : (0 : Int) ≤ p * 10 := by nlinarith
  have hfee0 : 0 ≤ (p * 10).tdiv 100 := Int.tdiv_nonneg hp10 (by norm_num)
  have hfee_le : (p * 10).tdiv 100 ≤ p := by
    rw [Int.tdiv_eq_ediv hp10 (by norm_num)]
    calc p * 10 / 100 ≤ p * 100 / 100 := Int.ediv_le_ediv h100 (by nlinarith)
    _ = p := Int.mul_ediv_cancel p (by norm_num)
  have hr0 : 0 ≤ p - (p * 10).tdiv 100 := by omega
  have hshare : ∀ q : Int, 0 ≤ q →
      0 ≤ ((p - (p * 10).tdiv 100) * q).tdiv 100 ∧
      ((p - (p * 10).tdiv 100) * q).tdiv 100 * 100 ≤ (p - (p * 10).tdiv 100) * q := by
    intro q hq
    have hm : (0 : Int) ≤ (p - (p * 10).tdiv 100) * q := mul_nonneg hr0 hq
    constructor
    · exact Int.tdiv_nonneg hm (by norm_num)
    · rw [Int.tdiv_eq_ediv hm (by norm_num)]
      exact Int.ediv_mul_le _ (by norm_num)
  obtain ⟨h50n, h50m⟩ := hshare 50 (by norm_num)
  obtain ⟨h30n, h30m⟩ := hshare 30 (by norm_num)
  obtain ⟨h20n, h20m⟩ := hshare 20 (by norm_num)
  refine ⟨hfee0, h50n, h30n, h20n, ?_⟩
  nlinarith

theorem cfConsistent_empty : cfConsistent emptyCampaign := rfl

theorem cfConsistent_step (s : CampaignState) (op : CfOp)
    (h : cfConsistent s) : cfConsistent (execCfOp s op) := by
  unfold cfConsistent get_total_raised at h ⊢
  cases op with
  | opInit o g dl tk =>
    simp [execCfOp, initCampaign, sumValues]
  | opDonate now d a =>
    unfold execCfOp donate
    cases hdl : s.deadline with
    | none => simpa using h
    | some dl =>
      by_cases h1 : dl < now
      · simpa [h1] using h
      · by_cases h2 : a ≤ 0
        · simpa [h1, h2] using h
        · cases htk : s.xlmToken with
          | none => simpa [h1, h2] using h
          | some tk =>
            cases ht : s.totalRaised with
            | none => simpa [h1, h2] using h
            | some total =>
              cases hds : s.donations with
              | none => simpa [h1, h2] using h
              | some ds =>
                simp only [h1, h2, if_false, ite_false]
                simp only [ht, hds, Option.getD_some] at h
                simp [sumValues_setK, h]
                ring
  | opRefund now d =>
    unfold execCfOp refund
    cases hdl : s.deadline with
    | none => simpa using h
    | some dl =>
      cases hg : s.goal with
      | none => simpa using h
      | some g =>
        cases ht : s.totalRaised with
        | none =>
          by_cases h1 : now ≤ dl
          · simpa [h1] using h
          · by_cases h2 : g ≤ (0 : Int)
            · simpa [h1, h2] using h
            · cases hds : s.donations with
              | none => simpa [h1, h2] using h
              | some ds =>
                by_cases h3 : lookupD ds d 0 ≤ 0
                · simpa [h1, h2, h3] using h
                · cases htk : s.xlmToken with
                  | none => simpa [h1, h2, h3] using h
                  | some tk => simpa [h1, h2, h3] using h
        | some total =>
          by_cases h1 : now ≤ dl
          · simpa [h1] using h
          · by_cases h2 : g ≤ total
            · simpa [h1, h2] using h
            · cases hds : s.donations with
              | none => simpa [h1, h2] using h
              | some ds =>
                by_cases h3 : lookupD ds d 0 ≤ 0
                · simpa [h1, h2, h3] using h
                · cases htk : s.xlmToken with
                  | none => simpa [h1, h2, h3] using h
                  | some tk =>
                    simp only [ht, hds, Option.getD_some] at h
                    have h2' : ¬g ≤ sumValues ds := h ▸ h2
                    simp [h1, h2', h3, sumValues_setK, h]

/-! ## Claim theorems -/

/-- C1 (counterexample).  The claim says a second `initialize` of the Campaign
Engine fails with `AlreadyInitialized` and leaves every stored field
unchanged.  On the concrete storage `campA` (the result of a first call), a
second call with different arguments instead succeeds and overwrites the
stored fields: the returned state has a different goal, owner, deadline and
token address. -/
theorem C1_counterexample :
    initCampaign emptyCampaign 1 100 10 2 = .ok campA ∧
    initCampaign campA 3 200 20 4 = .ok campB ∧
    (initCampaign campA 3 200 20 4).isOk = true ∧
    campB.goal ≠ campA.goal ∧ campB.owner ≠ campA.owner ∧
    campB.deadline ≠ campA.deadline := by
  refine ⟨rfl, rfl, rfl, by decide, by decide, by decide⟩

/-- C1 (amended).  `initialize` of the Campaign Engine performs no
already-initialized check: called on any stored state it succeeds and
unconditionally rewrites every storage key — owner, goal, deadline and token
address from its arguments, `totalRaised = 0`, an empty donations map, and the
init flag set to `true`. -/
theorem C1_reinit_overwrites (s : CampaignState) (o : Nat) (g : Int) (dl tk : Nat) :
    initCampaign s o g dl tk =
      .ok { owner := some o, goal := some g, deadline := some dl,
            totalRaised := some 0, donations := some [], xlmToken := some tk,
            isInit := some true } := rfl

/-- C2.  After any sequence of `initialize`, `donate` and `refund` calls
starting from fresh storage, the stored `totalRaised` equals the sum of the
values of the stored donations map (failed calls revert and change nothing). -/
theorem C2_ledger_consistency (ops : List CfOp) :
    cfConsistent (ops.foldl execCfOp emptyCampaign) := by
  have hstep : ∀ (l : List CfOp) (s : CampaignState),
      cfConsistent s → cfConsistent (l.foldl execCfOp s) := by
    intro l
    induction l with
    | nil => intro s hs; exact hs
    | cons op t ih =>
      intro s hs
      exact ih _ (cfConsistent_step s op hs)
  exact hstep ops emptyCampaign cfConsistent_empty

/-- C6 (counterexample).  The claim says every listed query returns its
documented default before initialization and never aborts; but `get_donation`
on fresh storage reads the donations map with a bare `unwrap()` and traps. -/
theorem C6_counterexample :
    get_donation emptyCampaign 1 = .error .missingKey := rfl

/-- C6 (amended).  Before initialization, `get_total_raised`,
`get_is_already_init` (campaign) and `get_competition`, `get_leaderboard`,
`get_player_stats`, `get_entry_fee`, `has_paid` (contest) indeed return their
documented defaults without aborting; but `get_donation`, `get_goal`,
`get_deadline`, `is_goal_reached`, `is_ended` (campaign) and `get_admin`
(contest) unwrap an absent storage key and abort. -/
theorem C6_query_defaults :
    get_total_raised emptyCampaign = 0 ∧
    get_is_already_init emptyCampaign = false ∧
    (∀ d : Nat, get_donation emptyCampaign d = .error .missingKey) ∧
    get_goal emptyCampaign = .error .missingKey ∧
    get_deadline emptyCampaign = .error .missingKey ∧
    is_goal_reached emptyCampaign = .error .missingKey ∧
    (∀ now : Nat, is_ended emptyCampaign now = .error .missingKey) ∧
    get_competition emptySnake = none ∧
    get_leaderboard emptySnake = [] ∧
    (∀ p : Nat, get_player_stats emptySnake p = none) ∧
    get_entry_fee emptySnake = 0 ∧
    (∀ p : Nat, has_paid emptySnake p = false) ∧
    get_admin emptySnake = .error .missingKey := by
  exact ⟨rfl, rfl, fun d => rfl, rfl, rfl, rfl, fun now => rfl, rfl, rfl,
    fun p => rfl, rfl, fun p => rfl, rfl⟩

/-- C8.  The progress-percentage query, as specified (and as present in the
source only as commented-out code that the repository's own test 13 still
calls), returns the truncating division `(totalRaised * 100) / goal`, returns
`0` when the goal is `0`, and is uncapped above 100: the exact value sequence
asserted by test 13 (25, 50, 100, 120) and the divide-by-zero guard. -/
theorem C8_progress_values :
    get_progress_percentage (campProgress 0) = .ok 0 ∧
    get_progress_percentage (campProgress 25000000) = .ok 25 ∧
    get_progress_percentage (campProgress 50000000) = .ok 50 ∧
    get_progress_percentage (campProgress 100000000) = .ok 100 ∧
    get_progress_percentage (campProgress 120000000) = .ok 120 ∧
    get_progress_percentage campGoal0 = .ok 0 ∧
    (∀ t : Int,
      get_progress_percentage (campProgress t) = .ok ((t * 100).tdiv 100000000)) := by
  refine ⟨rfl, rfl, rfl, rfl, rfl, rfl, fun t => rfl⟩

/-- C7.  For any stored campaign, once time-Closed (`deadline < now`) with the
goal unmet, a donor with a positive recorded donation `d` is refunded exactly
`d` (one transfer from contract custody back to the donor); afterwards the
stored donation reads `0` and `totalRaised` drops by `d`; a second `refund`
for the same donor aborts with `NoDonationFound` and performs no transfer. -/
theorem C7_refund_once (s : CampaignState) (dl : Nat) (g t d : Int)
    (ds : List (Nat × Int)) (tk donor now : Nat)
    (hdl : s.deadline = some dl) (hg : s.goal = some g)
    (ht : s.totalRaised = some t) (hds : s.donations = some ds)
    (htk : s.xlmToken = some tk)
    (hnow : dl < now) (hlt : t < g) (hd : lookupD ds donor 0 = d) (hdpos : 0 < d) :
    ∃ s2, refund s now donor = .ok (s2, d, [⟨Party.contract, Party.user donor, d⟩]) ∧
      get_donation s2 donor = .ok 0 ∧
      s2.totalRaised = some (t - d) ∧
      refund s2 now donor = .error .noDonationFound := by
  have h1 : ¬now ≤ dl := by omega
  have h2 : ¬g ≤ t := by omega
  have h3 : ¬d ≤ 0 := by omega
  refine ⟨{ s with totalRaised := some (t - d), donations := some (setK ds donor 0) },
    ?_, ?_, rfl, ?_⟩
  · unfold refund
    rw [hdl, hg, ht, hds]
    simp [h1, h2, hd, h3, htk]
  · unfold get_donation
    simp [lookupD_setK_self]
  · unfold refund
    have h2' : ¬g ≤ t - d := by omega
    simp [hdl, hg, ht, hds, h1, h2', lookupD_setK_self]

/-- C7 (witness).  The §8 example: goal 100,000,000, donor 7 deposited
30,000,000, deadline 100 passed (now = 101): the refund pays 30,000,000 once
and the second call fails with `NoDonationFound`. -/
theorem C7_refund_once_witness :
    ∃ s2, refund campRefundSample 101 7 =
        .ok (s2, 30000000, [⟨Party.contract, Party.user 7, 30000000⟩]) ∧
      get_donation s2 7 = .ok 0 ∧
      s2.totalRaised = some (30000000 - 30000000) ∧
      refund s2 101 7 = .error .noDonationFound :=
  C7_refund_once campRefundSample 100 100000000 30000000 30000000
    [(7, 30000000)] 2 7 101 rfl rfl rfl rfl rfl
    (by omega) (by omega) rfl (by omega)

/-- C4 (counterexample).  The claim says every contribution/entry action of
both engines succeeds at `now == deadline` when its other preconditions hold.
On `snTieSample` (active session, deadline 100, player 3 has not paid, token
configured) a `pay_entry_fee` at now = 100 nevertheless aborts with
`CompetitionEnded`: the contest engine closes its window AT the deadline. -/
theorem C4_counterexample :
    snTieSample.competition = some compTie ∧
    compTie.status = STATUS_ACTIVE ∧
    compTie.deadline = 100 ∧
    has_paid snTieSample 3 = false ∧
    snTieSample.token = some 8 ∧
    pay_entry_fee snTieSample 100 3 = .error .competitionEnded := by
  exact ⟨rfl, rfl, rfl, rfl, rfl, rfl⟩

/-- C4 (amended).  The two engines gate deadlines differently.  Campaign:
`donate` succeeds whenever `now ≤ deadline` (other preconditions holding) and
fails with `CampaignEnded` exactly when `now > deadline`.  Contest:
`pay_entry_fee` and `submit_score` succeed only while `now < deadline` and
fail with `CompetitionEnded` exactly when `now ≥ deadline` — at
`now == deadline` the contest window is already closed. -/
theorem C4_deadline_boundary
    (cs : CampaignState) (dl tk : Nat) (t : Int) (ds : List (Nat × Int))
    (hdl : cs.deadline = some dl) (htk : cs.xlmToken = some tk)
    (ht : cs.totalRaised = some t) (hds : cs.donations = some ds)
    (ss : SnakeState) (c : Competition) (stk : Nat)
    (hc : ss.competition = some c) (hstk : ss.token = some stk)
    (hact : c.status = STATUS_ACTIVE)
    (now donor pl1 pl2 sc : Nat) (amt : Int) (hamt : 0 < amt)
    (hpaid1 : lookupD (ss.paidPlayers.getD []) pl1 false = false)
    (hpaid2 : lookupD (ss.paidPlayers.getD []) pl2 false = true) :
    ((now ≤ dl → (donate cs now donor amt).isOk = true) ∧
      (dl < now → donate cs now donor amt = .error .campaignEnded)) ∧
    ((now < c.deadline → (pay_entry_fee ss now pl1).isOk = true) ∧
      (c.deadline ≤ now → pay_entry_fee ss now pl1 = .error .competitionEnded)) ∧
    ((now < c.deadline → (submit_score ss now pl2 sc).isOk = true) ∧
      (c.deadline ≤ now → submit_score ss now pl2 sc = .error .competitionEnded)) := by
  refine ⟨⟨?_, ?_⟩, ⟨?_, ?_⟩, ⟨?_, ?_⟩⟩
  · intro hle
    unfold donate
    rw [hdl, htk, ht, hds]
    simp [show ¬dl < now by omega, show ¬amt ≤ 0 by omega, Except.isOk, Except.toBool]
  · intro hlt
    unfold donate
    rw [hdl]
    simp [hlt]
  · intro hlt
    unfold pay_entry_fee
    rw [hc, hstk]
    simp [hact, show ¬c.deadline ≤ now by omega, hpaid1, Except.isOk, Except.toBool]
  · intro hge
    unfold pay_entry_fee
    rw [hc]
    simp [hact, hge]
  · intro hlt
    unfold submit_score
    rw [hc]
    simp [hact, show ¬c.deadline ≤ now by omega, hpaid2, Except.isOk, Except.toBool]
  · intro hge
    unfold submit_score
    rw [hc]
    simp [hact, hge]

/-- C4 (witness).  At `now = 100`, exactly the deadline of both sample
setups: the campaign `donate` still succeeds while the contest
`pay_entry_fee`/`submit_score` already abort with `CompetitionEnded`. -/
theorem C4_deadline_boundary_witness :
    ((100 ≤ 100 → (donate campRefundSample 100 5 1000).isOk = true) ∧
      (100 < 100 → donate campRefundSample 100 5 1000 = .error .campaignEnded)) ∧
    ((100 < compTie.deadline → (pay_entry_fee snTieSample 100 3).isOk = true) ∧
      (compTie.deadline ≤ 100 →
        pay_entry_fee snTieSample 100 3 = .error .competitionEnded)) ∧
    ((100 < compTie.deadline → (submit_score snTieSample 100 2 7).isOk = true) ∧
      (compTie.deadline ≤ 100 →
        submit_score snTieSample 100 2 7 = .error .competitionEnded)) :=
  C4_deadline_boundary campRefundSample 100 2 30000000 [(7, 30000000)]
    rfl rfl rfl rfl snTieSample compTie 8 rfl rfl rfl
    100 5 3 2 7 1000 (by omega) rfl rfl

/-- C5 (counterexample).  The claim says the stored leaderboard is sorted
*strictly* descending after every successful `submit_score`.  Concretely:
player 1 holds score 10, player 2 (having paid) submits score 10; the call
succeeds and stores two adjacent entries with equal `totalScore`, so strict
descent fails. -/
theorem C5_counterexample :
    submit_score snTieSample 0 2 10 = .ok (snTieResult, []) ∧
    snTieResult.leaderboard = some [⟨1, 1, 10, 1⟩, ⟨2, 1, 10, 2⟩] ∧
    ¬ List.Pairwise (fun x y => y.total_score < x.total_score)
        [(⟨1, 1, 10, 1⟩ : PlayerScore), ⟨2, 1, 10, 2⟩] := by
  refine ⟨rfl, rfl, ?_⟩
  intro hp
  rw [List.pairwise_cons] at hp
  have := hp.1 ⟨2, 1, 10, 2⟩ (by simp)
  simp at this

/-- C5 (amended).  After every successful `submit_score` the stored
leaderboard is sorted weakly descending by `totalScore` (ties, which the
strict reading excludes, keep their relative order) and every entry's `rank`
equals its 1-based position: the entry at index `i` has `rank = i + 1`. -/
theorem C5_leaderboard_sorted_ranked (s : SnakeState) (now player score : Nat)
    (s2 : SnakeState) (tr : List Transfer)
    (h : submit_score s now player score = .ok (s2, tr)) :
    ∃ lb2, s2.leaderboard = some lb2 ∧ sortedDesc lb2 ∧
      ∀ (i : Nat) (hi : i < lb2.length), (lb2.get ⟨i, hi⟩).rank = i + 1 := by
  unfold submit_score at h
  cases hcomp : s.competition with
  | none => rw [hcomp] at h; exact absurd h (by simp)
  | some comp =>
    rw [hcomp] at h
    by_cases h1 : comp.status ≠ STATUS_ACTIVE
    · simp [h1] at h
    · by_cases h2 : comp.deadline ≤ now
      · simp [h1, h2] at h
      · by_cases h3 : lookupD (s.paidPlayers.getD []) player false = false
        · simp [h1, h2, h3] at h
        · simp only [if_neg h1, if_neg h2, if_neg h3, Except.ok.injEq,
            Prod.mk.injEq] at h
          obtain ⟨hs2, -⟩ := h
          subst hs2
          refine ⟨_, rfl, ?_, ?_⟩
          · exact assignRanks_sorted _ 0 (sortLeaderboard_sorted _)
          · intro i hi
            rw [assignRanks_get]
            omega

/-- C5 (witness).  The concrete tie run: after player 2 submits score 10 next
to player 1's existing 10, the stored leaderboard is weakly descending and
ranks are 1, 2 by position. -/
theorem C5_leaderboard_sorted_ranked_witness :
    ∃ lb2, snTieResult.leaderboard = some lb2 ∧ sortedDesc lb2 ∧
      ∀ (i : Nat) (hi : i < lb2.length), (lb2.get ⟨i, hi⟩).rank = i + 1 :=
  C5_leaderboard_sorted_ranked snTieSample 0 2 10 snTieResult [] rfl

/-- C10.  The bubble sort of `submit_score` exchanges adjacent entries only on
strict `totalScore` inequality, hence it is stable: (i) for every score value,
the sublist of leaderboard entries carrying that score is preserved in order
by the sort; (ii) in `submit_score`, a newly inserted player (appended at the
end of the vector before sorting) whose `totalScore` equals an existing
player's ends up listed after every existing entry of that score — the
players carrying the new score, in order, are the old ones followed by the
new player. -/
theorem C10_sort_stability :
    (∀ (l : List PlayerScore) (sc : Nat),
      (sortLeaderboard l).filter (fun e => e.total_score == sc)
        = l.filter (fun e => e.total_score == sc)) ∧
    (∀ (s : SnakeState) (now pl score : Nat) (s2 : SnakeState)
        (tr : List Transfer) (lb : List PlayerScore),
      s.leaderboard = some lb →
      (∀ e ∈ lb, e.player ≠ pl) →
      submit_score s now pl score = .ok (s2, tr) →
      ∃ lb2, s2.leaderboard = some lb2 ∧
        (lb2.filter (fun e => e.total_score == score)).map (fun e => e.player)
          = (lb.filter (fun e => e.total_score == score)).map (fun e => e.player)
            ++ [pl]) := by
  constructor
  · exact fun l sc => sortLeaderboard_filter sc l
  · intro s now pl score s2 tr lb hlb hnew h
    have hmap : ∀ l2 : List PlayerScore, (∀ e ∈ l2, e.player ≠ pl) →
        l2.map (fun p =>
          if p.player = pl
          then { p with
                   total_games := p.total_games + 1
                   total_score := p.total_score + score }
          else p) = l2 := by
      intro l2
      induction l2 with
      | nil => intro _; rfl
      | cons a t ih =>
        intro hne
        simp only [List.map_cons, if_neg (hne a (by simp)), List.cons.injEq]
        exact ⟨trivial, ih (fun e he => hne e (by simp [he]))⟩
    unfold submit_score at h
    cases hcomp : s.competition with
    | none => rw [hcomp] at h; exact absurd h (by simp)
    | some comp =>
      rw [hcomp] at h
      by_cases h1 : comp.status ≠ STATUS_ACTIVE
      · simp [h1] at h
      · by_cases h2 : comp.deadline ≤ now
        · simp [h1, h2] at h
        · by_cases h3 : lookupD (s.paidPlayers.getD []) pl false = false
          · simp [h1, h2, h3] at h
          · simp only [if_neg h1, if_neg h2, if_neg h3, Except.ok.injEq,
              Prod.mk.injEq] at h
            obtain ⟨hs2, -⟩ := h
            subst hs2
            have hfound : ((s.leaderboard.getD []).any
                (fun p => decide (p.player = pl))) = false := by
              rw [hlb, List.any_eq_false]
              intro x hx
              simpa using hnew x hx
            refine ⟨_, rfl, ?_⟩
            rw [assignRanks_filter_players, hfound]
            simp only [Bool.false_eq_true, if_false, hlb, Option.getD_some,
              hmap lb hnew, sortLeaderboard_filter]
            simp [List.filter_append, List.filter_cons]

/-- C10 (witness).  Player 2 (new, score 10) ties player 1 (existing, score
10): among the entries with score 10 the stored order is player 1 first, then
player 2 — the newcomer is ranked below the incumbent. -/
theorem C10_sort_stability_witness :
    ∃ lb2, snTieResult.leaderboard = some lb2 ∧
      (lb2.filter (fun e => e.total_score == 10)).map (fun e => e.player)
        = (([⟨1, 1, 10, 1⟩] : List PlayerScore).filter
            (fun e => e.total_score == 10)).map (fun e => e.player) ++ [2] :=
  C10_sort_stability.2 snTieSample 0 2 10 snTieResult [] [⟨1, 1, 10, 1⟩]
    rfl (by decide) rfl

/-- C9.  With admin, token and a session stored, `end_competition` never
consults the ledger clock: its result is identical for every timestamp (so it
succeeds even while `now < deadline` — the source's deadline check is
commented out); it aborts exactly when the caller differs from the stored
admin or the session status is not `Active`; and every successful call sets
the status to `Claimed` — also when the prize pool is zero or the leaderboard
is empty, in which case no transfer at all is emitted and the pool stays in
contract custody. -/
theorem C9_end_competition_no_clock (s : SnakeState) (a tk caller : Nat)
    (c : Competition) (ha : s.admin = some a) (hc : s.competition = some c)
    (htk : s.token = some tk) :
    (∀ now now' : Nat,
      end_competition s now caller = end_competition s now' caller) ∧
    (∀ now : Nat, (end_competition s now caller).isOk = false ↔
      (caller ≠ a ∨ c.status ≠ STATUS_ACTIVE)) ∧
    (∀ now : Nat, caller = a → c.status = STATUS_ACTIVE →
      ∃ s2 trs, end_competition s now caller = .ok (s2, trs) ∧
        s2.competition = some { c with status := STATUS_CLAIMED } ∧
        s2.leaderboard = s.leaderboard ∧
        ((c.prize_pool = 0 ∨ s.leaderboard.getD [] = []) → trs = [])) := by
  refine ⟨fun now now' => rfl, ?_, ?_⟩
  · intro now
    unfold end_competition
    rw [ha, hc]
    by_cases hca : caller = a
    · by_cases hst : c.status = STATUS_ACTIVE
      · by_cases hcond : 0 < c.prize_pool ∧ 0 < (s.leaderboard.getD []).length
        · simp [hca, hst, hcond, htk, Except.isOk, Except.toBool]
        · simp [hca, hst, hcond, Except.isOk, Except.toBool]
      · simp [hca, hst, Except.isOk, Except.toBool]
    · simp [hca, Except.isOk, Except.toBool]
  · intro now hca hst
    subst hca
    by_cases hcond : 0 < c.prize_pool ∧ 0 < (s.leaderboard.getD []).length
    · have hrun : end_competition s now caller =
          .ok ({ s with competition := some { c with status := STATUS_CLAIMED } },
            ⟨Party.contract, Party.user caller, (c.prize_pool * 10).tdiv 100⟩ ::
              (payToRank (c.prize_pool - (c.prize_pool * 10).tdiv 100) 50
                  (s.leaderboard.getD [])[0]? ++
                payToRank (c.prize_pool - (c.prize_pool * 10).tdiv 100) 30
                  (s.leaderboard.getD [])[1]? ++
                payToRank (c.prize_pool - (c.prize_pool * 10).tdiv 100) 20
                  (s.leaderboard.getD [])[2]?)) := by
        unfold end_competition
        rw [ha, hc, htk]
        simp [hst, hcond]
      refine ⟨_, _, hrun, rfl, rfl, ?_⟩
      rintro (hz | hz)
      · exact absurd hcond (by simp [hz])
      · exact absurd hcond (by simp [hz])
    · have hrun : end_competition s now caller =
          .ok ({ s with competition := some { c with status := STATUS_CLAIMED } },
            []) := by
        unfold end_competition
        rw [ha, hc]
        simp [hst, hcond]
      exact ⟨_, _, hrun, rfl, rfl, fun _ => rfl⟩

/-- C9 (witness).  On the concrete stored session `snEndSample` (admin 1,
Active, pool 100): the call result is timestamp-independent, it is accepted
for the stored admin, and the status moves to `Claimed`. -/
theorem C9_end_competition_no_clock_witness :
    (∀ now now' : Nat,
      end_competition snEndSample now 1 = end_competition snEndSample now' 1) ∧
    (∀ now : Nat, (end_competition snEndSample now 1).isOk = false ↔
      ((1 : Nat) ≠ 1 ∨ compSample.status ≠ STATUS_ACTIVE)) ∧
    (∀ now : Nat, (1 : Nat) = 1 → compSample.status = STATUS_ACTIVE →
      ∃ s2 trs, end_competition snEndSample now 1 = .ok (s2, trs) ∧
        s2.competition = some { compSample with status := STATUS_CLAIMED } ∧
        s2.leaderboard = snEndSample.leaderboard ∧
        ((compSample.prize_pool = 0 ∨ snEndSample.leaderboard.getD [] = []) →
          trs = [])) :=
  C9_end_competition_no_clock snEndSample 1 2 1 compSample rfl rfl rfl

/-- C3.  For every stored Active session with positive prize pool and
non-empty leaderboard, `end_competition` (called by the stored admin) emits
exactly the admin fee `(p*10)/100` to the admin followed by
`(r*50)/100, (r*30)/100, (r*20)/100` of the remainder `r = p - adminFee` to
the players at leaderboard positions 1, 2, 3 (positions beyond the
leaderboard length are skipped — `zip` with the percentage list truncates),
all by truncating integer division; the amounts transferred sum to at most
`p` and the undistributed residue is never negative. -/
theorem C3_payout_distribution (s : SnakeState) (a tk : Nat) (c : Competition)
    (now : Nat) (ha : s.admin = some a) (hc : s.competition = some c)
    (htk : s.token = some tk) (hact : c.status = STATUS_ACTIVE)
    (hpool : 0 < c.prize_pool) (hlb : s.leaderboard.getD [] ≠ []) :
    ∃ s2 trs, end_competition s now a = .ok (s2, trs) ∧
      trs = ⟨Party.contract, Party.user a, (c.prize_pool * 10).tdiv 100⟩ ::
        (((s.leaderboard.getD []).take 3).zip [(50 : Int), 30, 20]).map
          (fun pr => ⟨Party.contract, Party.user pr.1.player,
            ((c.prize_pool - (c.prize_pool * 10).tdiv 100) * pr.2).tdiv 100⟩) ∧
      sumAmounts trs ≤ c.prize_pool ∧
      0 ≤ c.prize_pool - sumAmounts trs := by
  obtain ⟨hfee0, h50n, h30n, h20n, hsum⟩ := payout_bound_int c.prize_pool hpool
  have hlen : 0 < (s.leaderboard.getD []).length := List.length_pos.mpr hlb
  have hrun : end_competition s now a =
      .ok ({ s with competition := some { c with status := STATUS_CLAIMED } },
        ⟨Party.contract, Party.user a, (c.prize_pool * 10).tdiv 100⟩ ::
          (payToRank (c.prize_pool - (c.prize_pool * 10).tdiv 100) 50
              (s.leaderboard.getD [])[0]? ++
            payToRank (c.prize_pool - (c.prize_pool * 10).tdiv 100) 30
              (s.leaderboard.getD [])[1]? ++
            payToRank (c.prize_pool - (c.prize_pool * 10).tdiv 100) 20
              (s.leaderboard.getD [])[2]?)) := by
    unfold end_competition
    rw [ha, hc, htk]
    simp [hact, hpool, hlen]
  refine ⟨_, _, hrun, ?_, ?_, ?_⟩
  · rcases hL : s.leaderboard.getD [] with _ | ⟨p1, t1⟩
    · exact absurd hL hlb
    · rcases t1 with _ | ⟨p2, t2⟩
      · simp [payToRank]
      · rcases t2 with _ | ⟨p3, t3⟩
        · simp [payToRank]
        · simp [payToRank]
  · rcases hL : s.leaderboard.getD [] with _ | ⟨p1, t1⟩
    · exact absurd hL hlb
    · rcases t1 with _ | ⟨p2, t2⟩
      · simp only [hL] at *
        simp [payToRank, sumAmounts]
        linarith
      · rcases t2 with _ | ⟨p3, t3⟩
        · simp only [hL] at *
          simp [payToRank, sumAmounts]
          linarith
        · simp only [hL] at *
          simp [payToRank, sumAmounts]
          linarith
  · rcases hL : s.leaderboard.getD [] with _ | ⟨p1, t1⟩
    · exact absurd hL hlb
    · rcases t1 with _ | ⟨p2, t2⟩
      · simp only [hL] at *
        simp [payToRank, sumAmounts]
        linarith
      · rcases t2 with _ | ⟨p3, t3⟩
        · simp only [hL] at *
          simp [payToRank, sumAmounts]
          linarith
        · simp only [hL] at *
          simp [payToRank, sumAmounts]
          linarith

/-- C3 (witness).  The concrete session `snEndSample` (pool 100, two ranked
players): the admin receives 10, rank 1 receives 45, rank 2 receives 27, rank
3 is skipped; 82 ≤ 100 and the residue 18 stays in custody. -/
theorem C3_payout_distribution_witness :
    ∃ s2 trs, end_competition snEndSample 0 1 = .ok (s2, trs) ∧
      trs = ⟨Party.contract, Party.user 1, (compSample.prize_pool * 10).tdiv 100⟩ ::
        (((snEndSample.leaderboard.getD []).take 3).zip [(50 : Int), 30, 20]).map
          (fun pr => ⟨Party.contract, Party.user pr.1.player,
            ((compSample.prize_pool -
              (compSample.prize_pool * 10).tdiv 100) * pr.2).tdiv 100⟩) ∧
      sumAmounts trs ≤ compSample.prize_pool ∧
      0 ≤ compSample.prize_pool - sumAmounts trs :=
  C3_payout_distribution snEndSample 1 2 compSample 0 rfl rfl rfl rfl
    (by decide) (by decide)
